import Mathlib

/-!
Shallow embedding, over ℝ, of the collision-and-reflection engine shared by
`scripts/balltest/hex_test.py` and `scripts/balltest/loftwah.py`, and of the
snake game in `scripts/balltest/nibbles.py`.  Python floats are modelled as
real numbers; the per-frame procedural loop is modelled as explicit state
passing; Python's `ZeroDivisionError` is modelled with `Except` where a
claim is about error behaviour.
-/

noncomputable section

namespace HexSim

/-- Hexagon center `(width // 2, height // 2)` for `width, height = 800, 600`. -/
def center : ℝ × ℝ := (400, 300)

/-- `hex_size = 200`, distance from center to vertex. -/
def hex_size : ℝ := 200

/-- `rotation_speed = 2`, degrees per frame. -/
def rotation_speed : ℝ := 2

/-- `ball_radius = 10`. -/
def ball_radius : ℝ := 10

/-- `math.radians`: degrees to radians. -/
def radians (deg : ℝ) : ℝ := deg * (Real.pi / 180)

/-- `get_hexagon_vertices(center, size, angle)` (hex_test.py lines 28-35,
identical in loftwah.py lines 35-42): the six vertices of the rotated
hexagon, vertex `i` at angle `angle + 60*i` degrees, at distance `size`. -/
def get_hexagon_vertices (c : ℝ × ℝ) (size : ℝ) (angle : ℝ) : List (ℝ × ℝ) :=
  (List.range 6).map (fun (i : ℕ) =>
    (c.1 + size * Real.cos (radians (angle + 60 * (i : ℝ))),
     c.2 + size * Real.sin (radians (angle + 60 * (i : ℝ)))))

/-- Lines 40-44 of hex_test.py (46-49 of loftwah.py): the unit perpendicular
`(-line_vec[1], line_vec[0]) / norm_len` of the edge `p1 → p2`. -/
def edgeNormal (p1 p2 : ℝ × ℝ) : ℝ × ℝ :=
  let line_vec := (p2.1 - p1.1, p2.2 - p1.2)
  let normal0 := (-line_vec.2, line_vec.1)
  let norm_len := Real.sqrt (normal0.1 ^ 2 + normal0.2 ^ 2)
  (normal0.1 / norm_len, normal0.2 / norm_len)

/-- Line 52 of hex_test.py: signed distance
`d = (pos - p1) · normal` of `pos` from the edge line. -/
def signedDist (pos p1 p2 : ℝ × ℝ) : ℝ :=
  (pos.1 - p1.1) * (edgeNormal p1 p2).1 + (pos.2 - p1.2) * (edgeNormal p1 p2).2

/-- `reflect_velocity(pos, vel, p1, p2)` of hex_test.py (lines 38-56).  The
Python function returns the reflected velocity and additionally mutates
`pos` in place (the positional correction); we return the pair
`(new_vel, new_pos)`. -/
def reflect_velocity (pos vel p1 p2 : ℝ × ℝ) : (ℝ × ℝ) × (ℝ × ℝ) :=
  let normal := edgeNormal p1 p2
  let dot := vel.1 * normal.1 + vel.2 * normal.2
  let new_vel := (vel.1 - 2 * dot * normal.1, vel.2 - 2 * dot * normal.2)
  let d := signedDist pos p1 p2
  let new_pos :=
    if |d| < ball_radius then
      (pos.1 + normal.1 * (ball_radius - |d|), pos.2 + normal.2 * (ball_radius - |d|))
    else pos
  (new_vel, new_pos)

/-- `reflect_velocity(pos, vel, p1, p2)` of loftwah.py (lines 45-51): same
velocity formula, no positional correction, `pos` unused. -/
def loftwah_reflect_velocity (vel p1 p2 : ℝ × ℝ) : ℝ × ℝ :=
  let normal := edgeNormal p1 p2
  let dot := vel.1 * normal.1 + vel.2 * normal.2
  (vel.1 - 2 * dot * normal.1, vel.2 - 2 * dot * normal.2)

/-- Dot product on ℝ². -/
def dot2 (a b : ℝ × ℝ) : ℝ := a.1 * b.1 + a.2 * b.2

/-- Squared Euclidean norm on ℝ². -/
def sqnorm (v : ℝ × ℝ) : ℝ := v.1 ^ 2 + v.2 ^ 2

/-- Euclidean magnitude on ℝ². -/
def speed (v : ℝ × ℝ) : ℝ := Real.sqrt (sqnorm v)

/-- A unit vector perpendicular to the edge `p1 → p2` that points away from
the polygon's interior point `c` (spec §4.3: "outward normal"). -/
def isOutwardUnitNormal (c p1 p2 u : ℝ × ℝ) : Prop :=
  sqnorm u = 1 ∧
  dot2 u (p2.1 - p1.1, p2.2 - p1.2) = 0 ∧
  dot2 u (c.1 - p1.1, c.2 - p1.2) < 0

/-- Line 84 of hex_test.py: `wall_len`, the length of the edge `p1 → p2`. -/
def wallLen (p1 p2 : ℝ × ℝ) : ℝ :=
  Real.sqrt ((p2.1 - p1.1) ^ 2 + (p2.2 - p1.2) ^ 2)

/-- Line 88 of hex_test.py: `proj_len = v1 · wall_unit`, the projection of
`pos - p1` on the unit edge direction. -/
def projLen (pos p1 p2 : ℝ × ℝ) : ℝ :=
  (pos.1 - p1.1) * ((p2.1 - p1.1) / wallLen p1 p2) +
  (pos.2 - p1.2) * ((p2.2 - p1.2) / wallLen p1 p2)

/-- Lines 91-92 of hex_test.py: `dist`, the norm of the perpendicular
component of `pos - p1` relative to the edge direction. -/
def perpDist (pos p1 p2 : ℝ × ℝ) : ℝ :=
  Real.sqrt ((pos.1 - p1.1 - projLen pos p1 p2 * ((p2.1 - p1.1) / wallLen p1 p2)) ^ 2 +
             (pos.2 - p1.2 - projLen pos p1 p2 * ((p2.2 - p1.2) / wallLen p1 p2)) ^ 2)

/-- The collision test of lines 89-93 of hex_test.py: the projection falls
within the segment and the perpendicular distance is at most `ball_radius`. -/
def qualifies (pos p1 p2 : ℝ × ℝ) : Prop :=
  (0 ≤ projLen pos p1 p2 ∧ projLen pos p1 p2 ≤ wallLen p1 p2) ∧
  perpDist pos p1 p2 ≤ ball_radius

/-- The mutable state read and written by the collision loop of hex_test.py
(lines 77-94): ball position, ball velocity, plus an instrumentation counter
of how many times `reflect_velocity` has been invoked this frame. -/
structure ScanState where
  pos : ℝ × ℝ
  vel : ℝ × ℝ
  count : ℕ

/-- One iteration of the collision loop of hex_test.py (lines 78-94): if the
edge qualifies, `ball_vel` is replaced by the reflected velocity and
`ball_pos` is mutated by the positional correction inside
`reflect_velocity`; otherwise the state is unchanged.  There is no `break`:
the loop continues with the next edge either way. -/
def scanEdge (p1 p2 : ℝ × ℝ) (s : ScanState) : ScanState :=
  if 0 ≤ projLen s.pos p1 p2 ∧ projLen s.pos p1 p2 ≤ wallLen p1 p2 then
    if perpDist s.pos p1 p2 ≤ ball_radius then
      let r := reflect_velocity s.pos s.vel p1 p2
      ⟨r.2, r.1, s.count + 1⟩
    else s
  else s

/-- The whole collision loop `for i in range(6)` of hex_test.py
(lines 77-94). -/
def collisionScan (vs : List (ℝ × ℝ)) (s : ScanState) : ScanState :=
  (List.range 6).foldl
    (fun t i => scanEdge (vs.getD i (0, 0)) (vs.getD ((i + 1) % 6) (0, 0)) t) s

/-- The per-frame simulation state of hex_test.py: `hex_angle`, `ball_pos`,
`ball_vel`. -/
structure SimState where
  angle : ℝ
  pos : ℝ × ℝ
  vel : ℝ × ℝ

/-- One frame of the main loop of hex_test.py (lines 68-94): advance the
rotation angle, recompute the vertices, integrate the ball position, and run
the collision loop. -/
def step (st : SimState) : SimState :=
  let angle := st.angle + rotation_speed
  let vertices := get_hexagon_vertices center hex_size angle
  let pos := (st.pos.1 + st.vel.1, st.pos.2 + st.vel.2)
  let s := collisionScan vertices ⟨pos, st.vel, 0⟩
  ⟨angle, s.pos, s.vel⟩

/-- Number of times `reflect_velocity` is invoked during one frame of the
main loop of hex_test.py starting from state `st`. -/
def stepReflectionCount (st : SimState) : ℕ :=
  (collisionScan (get_hexagon_vertices center hex_size (st.angle + rotation_speed))
    ⟨(st.pos.1 + st.vel.1, st.pos.2 + st.vel.2), st.vel, 0⟩).count

/-- Free Motion (spec §4.4): no edge of the current polygon qualifies
against the entity's position. -/
def FreeMotion (vs : List (ℝ × ℝ)) (pos : ℝ × ℝ) : Prop :=
  ∀ i, i < 6 → ¬ qualifies pos (vs.getD i (0, 0)) (vs.getD ((i + 1) % 6) (0, 0))

/-- The hexagon vertex list at rotation angle 0, in closed form (see
`hexVertices_angle0`). -/
def hexList0 : List (ℝ × ℝ) :=
  [(600, 300),
   (500, 300 + 100 * Real.sqrt 3),
   (300, 300 + 100 * Real.sqrt 3),
   (200, 300),
   (300, 300 - 100 * Real.sqrt 3),
   (500, 300 - 100 * Real.sqrt 3)]

/-- The per-edge collision test of hex_test.py lines 83-93 with Python's
error semantics made explicit: `wall_unit = wall / wall_len` raises
`ZeroDivisionError` when `wall_len == 0` (there is no guard in the source);
otherwise the collision condition of lines 89-93 is returned. -/
def detectEdge (pos : ℝ × ℝ) (radius : ℝ) (p1 p2 : ℝ × ℝ) : Except String Prop :=
  let wall := (p2.1 - p1.1, p2.2 - p1.2)
  let wall_len := Real.sqrt (wall.1 ^ 2 + wall.2 ^ 2)
  if wall_len = 0 then Except.error "ZeroDivisionError"
  else
    let wall_unit := (wall.1 / wall_len, wall.2 / wall_len)
    let proj_len := (pos.1 - p1.1) * wall_unit.1 + (pos.2 - p1.2) * wall_unit.2
    Except.ok ((0 ≤ proj_len ∧ proj_len ≤ wall_len) ∧
      Real.sqrt ((pos.1 - p1.1 - proj_len * wall_unit.1) ^ 2 +
                 (pos.2 - p1.2 - proj_len * wall_unit.2) ^ 2) ≤ radius)

end HexSim

end

namespace Nibbles

/-- `WIDTH = 800` (nibbles.py). -/
def WIDTH : ℤ := 800

/-- `HEIGHT = 600` (nibbles.py). -/
def HEIGHT : ℤ := 600

/-- `BLOCK_SIZE = 20` (nibbles.py). -/
def BLOCK_SIZE : ℤ := 20

/-- The content written when `high_scores.txt` is absent (nibbles.py lines
27-29): `f.write("0\n0\n0")`. -/
def initialHighScoreContent : String := "0\n0\n0"

/-- Python's `sorted(scores, reverse=True)`: stable descending sort. -/
def sortDesc (l : List ℤ) : List ℤ := List.insertionSort (· ≥ ·) l

/-- `save_high_scores(scores)` (nibbles.py lines 35-38): the file content
written — the three largest scores in descending order, each formatted as
`f"{score}\n"`. -/
def save_high_scores (scores : List ℤ) : String :=
  String.join (((sortDesc scores).take 3).map (fun score => toString score ++ "\n"))

/-- Game state constant `MENU = 0`. -/
def MENU : ℕ := 0

/-- Game state constant `PLAYING = 1`. -/
def PLAYING : ℕ := 1

/-- Game state constant `GAME_OVER = 2`. -/
def GAME_OVER : ℕ := 2

/-- The global mutable state read and written by `move_snake` (nibbles.py):
snake body, direction, food, score, game state, session high score, the
in-memory high-score list and the current content of `high_scores.txt`. -/
structure GameState where
  snake : List (ℤ × ℤ)
  dir : ℤ × ℤ
  food : ℤ × ℤ
  score : ℤ
  phase : ℕ
  sessionHigh : ℤ
  highScores : List ℤ
  savedFile : String

/-- Lines 69-71 of nibbles.py: the wrapped new head position.  Python's `%`
with a positive modulus agrees with `Int.emod`. -/
def newHead (g : GameState) : ℤ × ℤ :=
  (((g.snake.headD (0, 0)).1 + g.dir.1) % WIDTH,
   ((g.snake.headD (0, 0)).2 + g.dir.2) % HEIGHT)

/-- `move_snake()` (nibbles.py lines 67-86).  Food respawn uses
`random.randint`; the freshly drawn food position is passed in as the
oracle argument `newFood`. -/
def move_snake (g : GameState) (newFood : ℤ × ℤ) : GameState :=
  if newHead g ∈ g.snake then
    { g with sessionHigh := max g.sessionHigh g.score,
             highScores := g.highScores ++ [g.score],
             savedFile := save_high_scores (g.highScores ++ [g.score]),
             phase := GAME_OVER }
  else
    if newHead g = g.food then
      { g with snake := newHead g :: g.snake, score := g.score + 1, food := newFood }
    else
      { g with snake := (newHead g :: g.snake).dropLast }

end Nibbles

namespace HexSim

lemma loftwah_reflect_eq (pos vel p1 p2 : ℝ × ℝ) :
    loftwah_reflect_velocity vel p1 p2 = (reflect_velocity pos vel p1 p2).1 := rfl

lemma sq_sum_pos_of_not_both_zero {a b : ℝ} (h : ¬(a = 0 ∧ b = 0)) :
    0 < a ^ 2 + b ^ 2 := by
  rcases lt_or_eq_of_le (by positivity : (0:ℝ) ≤ a ^ 2 + b ^ 2) with hlt | heq
  · exact hlt
  · exfalso
    apply h
    constructor
    · have ha : a ^ 2 = 0 := by nlinarith [sq_nonneg a, sq_nonneg b]
      exact (pow_eq_zero_iff two_ne_zero).mp ha
    · have hb : b ^ 2 = 0 := by nlinarith [sq_nonneg a, sq_nonneg b]
      exact (pow_eq_zero_iff two_ne_zero).mp hb

lemma edge_ne_zero {p1 p2 : ℝ × ℝ} (h : p1 ≠ p2) :
    ¬(p2.1 - p1.1 = 0 ∧ p2.2 - p1.2 = 0) := by
  rintro ⟨hx, hy⟩
  exact h (Prod.ext_iff.mpr ⟨by linarith, by linarith⟩)

lemma sqnorm_edgeNormal {p1 p2 : ℝ × ℝ} (h : p1 ≠ p2) :
    sqnorm (edgeNormal p1 p2) = 1 := by
  have hne := edge_ne_zero h
  have hS : 0 < (-(p2.2 - p1.2)) ^ 2 + (p2.1 - p1.1) ^ 2 := by
    have : ¬(-(p2.2 - p1.2) = 0 ∧ p2.1 - p1.1 = 0) := by
      rintro ⟨ha, hb⟩
      exact hne ⟨hb, by linarith⟩
    exact sq_sum_pos_of_not_both_zero this
  have hL2 : Real.sqrt ((-(p2.2 - p1.2)) ^ 2 + (p2.1 - p1.1) ^ 2) ^ 2
      = (-(p2.2 - p1.2)) ^ 2 + (p2.1 - p1.1) ^ 2 := Real.sq_sqrt hS.le
  have hL0 : 0 < Real.sqrt ((-(p2.2 - p1.2)) ^ 2 + (p2.1 - p1.1) ^ 2) :=
    Real.sqrt_pos.mpr hS
  simp only [edgeNormal, sqnorm]
  rw [div_pow, div_pow, div_add_div_same, hL2, div_self hS.ne']

/-- Specular reflection about a unit vector preserves the squared norm. -/
lemma sqnorm_reflect_unit (v n : ℝ × ℝ) (hn : sqnorm n = 1) :
    sqnorm (v.1 - 2 * (v.1 * n.1 + v.2 * n.2) * n.1,
            v.2 - 2 * (v.1 * n.1 + v.2 * n.2) * n.2) = sqnorm v := by
  simp only [sqnorm] at hn ⊢
  nlinarith [hn, sq_nonneg (v.1 * n.1 + v.2 * n.2)]

lemma sqnorm_reflect_velocity (pos vel p1 p2 : ℝ × ℝ) (h : p1 ≠ p2) :
    sqnorm (reflect_velocity pos vel p1 p2).1 = sqnorm vel := by
  have := sqnorm_reflect_unit vel (edgeNormal p1 p2) (sqnorm_edgeNormal h)
  simpa [reflect_velocity] using this

lemma sqrt_forty_thousand : Real.sqrt 40000 = 200 := by
  rw [show (40000:ℝ) = 200 ^ 2 by norm_num, Real.sqrt_sq (by norm_num : (0:ℝ) ≤ 200)]

lemma sqrt3_sq : Real.sqrt 3 ^ 2 = 3 := Real.sq_sqrt (by norm_num)

lemma sqrt3_pos : 0 < Real.sqrt 3 := Real.sqrt_pos.mpr (by norm_num)

lemma sqrt3_lt : Real.sqrt 3 < 1.8 := by
  rw [show (1.8:ℝ) = Real.sqrt (1.8 ^ 2) from
    (Real.sqrt_sq (by norm_num : (0:ℝ) ≤ 1.8)).symm]
  exact Real.sqrt_lt_sqrt (by norm_num) (by norm_num)

lemma sqrt3_gt : 1.7 < Real.sqrt 3 := by
  rw [show (1.7:ℝ) = Real.sqrt (1.7 ^ 2) from
    (Real.sqrt_sq (by norm_num : (0:ℝ) ≤ 1.7)).symm]
  exact Real.sqrt_lt_sqrt (by norm_num) (by norm_num)

lemma rad0 : radians 0 = 0 := by simp [radians]

lemma rad60 : radians 60 = Real.pi / 3 := by unfold radians; ring

lemma rad120 : radians 120 = Real.pi - Real.pi / 3 := by unfold radians; ring

lemma rad180 : radians 180 = Real.pi := by unfold radians; ring

lemma rad240 : radians 240 = Real.pi / 3 + Real.pi := by unfold radians; ring

lemma rad300 : radians 300 = 2 * Real.pi - Real.pi / 3 := by unfold radians; ring

lemma cos_rad0 : Real.cos (radians 0) = 1 := by rw [rad0, Real.cos_zero]

lemma sin_rad0 : Real.sin (radians 0) = 0 := by rw [rad0, Real.sin_zero]

lemma cos_rad60 : Real.cos (radians 60) = 1 / 2 := by rw [rad60, Real.cos_pi_div_three]

lemma sin_rad60 : Real.sin (radians 60) = Real.sqrt 3 / 2 := by
  rw [rad60, Real.sin_pi_div_three]

lemma cos_rad120 : Real.cos (radians 120) = -(1 / 2) := by
  rw [rad120, Real.cos_pi_sub, Real.cos_pi_div_three]

lemma sin_rad120 : Real.sin (radians 120) = Real.sqrt 3 / 2 := by
  rw [rad120, Real.sin_pi_sub, Real.sin_pi_div_three]

lemma cos_rad180 : Real.cos (radians 180) = -1 := by rw [rad180, Real.cos_pi]

lemma sin_rad180 : Real.sin (radians 180) = 0 := by rw [rad180, Real.sin_pi]

lemma cos_rad240 : Real.cos (radians 240) = -(1 / 2) := by
  rw [rad240, Real.cos_add_pi, Real.cos_pi_div_three]

lemma sin_rad240 : Real.sin (radians 240) = -(Real.sqrt 3 / 2) := by
  rw [rad240, Real.sin_add_pi, Real.sin_pi_div_three]

lemma cos_rad300 : Real.cos (radians 300) = 1 / 2 := by
  rw [rad300, Real.cos_sub, Real.cos_two_pi, Real.sin_two_pi, Real.cos_pi_div_three,
    Real.sin_pi_div_three]
  ring

lemma sin_rad300 : Real.sin (radians 300) = -(Real.sqrt 3 / 2) := by
  rw [rad300, Real.sin_sub, Real.cos_two_pi, Real.sin_two_pi, Real.cos_pi_div_three,
    Real.sin_pi_div_three]
  ring

/-- The hexagon vertex list at rotation angle `0`, evaluated in closed form. -/
lemma hexVertices_angle0 :
    get_hexagon_vertices center hex_size 0 = hexList0 := by
  have h6 : List.range 6 = [0, 1, 2, 3, 4, 5] := rfl
  simp only [get_hexagon_vertices, h6, List.map_cons, List.map_nil, center, hex_size,
    hexList0]
  norm_num [List.cons.injEq, Prod.mk.injEq, cos_rad0, sin_rad0, cos_rad60, sin_rad60,
    cos_rad120, sin_rad120, cos_rad180, sin_rad180, cos_rad240, sin_rad240,
    cos_rad300, sin_rad300]
  repeat' apply And.intro
  all_goals ring

/-- Claim C1: for every velocity vector and every non-degenerate edge
`(p1, p2)`, the velocity returned by `reflect_velocity` (both the hex_test
and the loftwah version) has the same Euclidean magnitude as the input
velocity — specular reflection conserves speed. -/
theorem reflect_velocity_preserves_speed (pos vel p1 p2 : ℝ × ℝ) (h : p1 ≠ p2) :
    speed (reflect_velocity pos vel p1 p2).1 = speed vel ∧
    speed (loftwah_reflect_velocity vel p1 p2) = speed vel := by
  have hs := sqnorm_reflect_velocity pos vel p1 p2 h
  constructor
  · unfold speed
    rw [hs]
  · unfold speed
    rw [loftwah_reflect_eq pos vel p1 p2, hs]

/-- Witness for C1 at the concrete input `vel = (3, 2)`, edge from `(0,0)`
to `(1,0)`. -/
theorem reflect_velocity_preserves_speed_witness :
    ((0, 0) : ℝ × ℝ) ≠ (1, 0) ∧
    speed (reflect_velocity (0, 0) (3, 2) (0, 0) (1, 0)).1 = speed (3, 2) ∧
    speed (loftwah_reflect_velocity (3, 2) (0, 0) (1, 0)) = speed (3, 2) := by
  have hne : ((0, 0) : ℝ × ℝ) ≠ (1, 0) := by
    simp [Prod.ext_iff]
  exact ⟨hne, reflect_velocity_preserves_speed (0, 0) (3, 2) (0, 0) (1, 0) hne⟩

lemma reflect_dot_perp (vx vy ex ey u1 u2 L : ℝ) (hL : L ≠ 0)
    (hL2 : L ^ 2 = (-ey) ^ 2 + ex ^ 2) (hperp : u1 * ex + u2 * ey = 0) :
    (vx - 2 * (vx * (-ey / L) + vy * (ex / L)) * (-ey / L)) * u1 +
      (vy - 2 * (vx * (-ey / L) + vy * (ex / L)) * (ex / L)) * u2
        = -(vx * u1 + vy * u2) := by
  have hS : ((-ey) ^ 2 + ex ^ 2) ≠ 0 := by
    rw [← hL2]; exact pow_ne_zero 2 hL
  have key : (vx * (-ey / L) + vy * (ex / L)) * ((-ey / L) * u1 + (ex / L) * u2)
      = vx * u1 + vy * u2 := by
    have h1 : (vx * (-ey / L) + vy * (ex / L)) * ((-ey / L) * u1 + (ex / L) * u2)
        = ((-(vx * ey) + vy * ex) * (-(ey * u1) + ex * u2)) / L ^ 2 := by
      field_simp
      ring
    have h2 : (-(vx * ey) + vy * ex) * (-(ey * u1) + ex * u2)
        = (vx * u1 + vy * u2) * ((-ey) ^ 2 + ex ^ 2) := by
      linear_combination (-(vx * ex + vy * ey)) * hperp
    rw [h1, hL2, h2, mul_div_assoc, div_self hS, mul_one]
  linear_combination (-2 : ℝ) * key

/-- Claim C2 (amended): for every velocity and non-degenerate edge, the
component of the reflected velocity along an outward unit normal `u` of that
edge is the exact negation of the incoming component — so it is non-negative
only when the incoming component was non-positive; the code reflects
unconditionally without checking the approach direction. -/
theorem reflect_velocity_reverses_outward_component
    (c pos vel p1 p2 u : ℝ × ℝ) (h : p1 ≠ p2)
    (hu : isOutwardUnitNormal c p1 p2 u) :
    dot2 (reflect_velocity pos vel p1 p2).1 u = -(dot2 vel u) := by
  obtain ⟨hunit, hperp, hout⟩ := hu
  have hne := edge_ne_zero h
  have hS : 0 < (-(p2.2 - p1.2)) ^ 2 + (p2.1 - p1.1) ^ 2 := by
    have : ¬(-(p2.2 - p1.2) = 0 ∧ p2.1 - p1.1 = 0) := by
      rintro ⟨ha, hb⟩
      exact hne ⟨hb, by linarith⟩
    exact sq_sum_pos_of_not_both_zero this
  have hL0 : 0 < Real.sqrt ((-(p2.2 - p1.2)) ^ 2 + (p2.1 - p1.1) ^ 2) :=
    Real.sqrt_pos.mpr hS
  have hL2 : Real.sqrt ((-(p2.2 - p1.2)) ^ 2 + (p2.1 - p1.1) ^ 2) ^ 2
      = (-(p2.2 - p1.2)) ^ 2 + (p2.1 - p1.1) ^ 2 := Real.sq_sqrt hS.le
  simp only [dot2] at hperp ⊢
  simp only [reflect_velocity, edgeNormal]
  linear_combination reflect_dot_perp vel.1 vel.2 (p2.1 - p1.1) (p2.2 - p1.2)
    u.1 u.2 (Real.sqrt ((-(p2.2 - p1.2)) ^ 2 + (p2.1 - p1.1) ^ 2)) hL0.ne' hL2 hperp

/-- Witness for the amended C2: the top edge of the hexagon at angle 0,
outward unit normal `(0, 1)`, incoming velocity `(3, 2)`. -/
theorem reflect_velocity_reverses_outward_component_witness :
    ((500, 300 + 100 * Real.sqrt 3) : ℝ × ℝ) ≠ (300, 300 + 100 * Real.sqrt 3) ∧
    isOutwardUnitNormal center (500, 300 + 100 * Real.sqrt 3)
      (300, 300 + 100 * Real.sqrt 3) (0, 1) ∧
    dot2 (reflect_velocity center (3, 2) (500, 300 + 100 * Real.sqrt 3)
      (300, 300 + 100 * Real.sqrt 3)).1 (0, 1) = -(dot2 (3, 2) (0, 1)) := by
  have hne : ((500, 300 + 100 * Real.sqrt 3) : ℝ × ℝ) ≠ (300, 300 + 100 * Real.sqrt 3) := by
    simp only [ne_eq, Prod.ext_iff, not_and]
    intro hx
    norm_num at hx
  have hu : isOutwardUnitNormal center (500, 300 + 100 * Real.sqrt 3)
      (300, 300 + 100 * Real.sqrt 3) (0, 1) := by
    refine ⟨by norm_num [sqnorm], by norm_num [dot2], ?_⟩
    simp only [dot2, center]
    nlinarith [sqrt3_pos]
  exact ⟨hne, hu, reflect_velocity_reverses_outward_component center center (3, 2)
    _ _ (0, 1) hne hu⟩

/-- Counterexample to claim C2 as stated: for the top edge of the hexagon at
angle 0 (vertices 1 and 2 of the generated list) with outward unit normal
`(0, 1)`, the incoming velocity `(0, 1)` is reflected to `(0, -1)`, whose dot
product with the outward normal is negative. -/
theorem reflect_velocity_outward_component_counterexample :
    (get_hexagon_vertices center hex_size 0).getD 1 (0, 0)
        = (500, 300 + 100 * Real.sqrt 3) ∧
    (get_hexagon_vertices center hex_size 0).getD 2 (0, 0)
        = (300, 300 + 100 * Real.sqrt 3) ∧
    isOutwardUnitNormal center (500, 300 + 100 * Real.sqrt 3)
      (300, 300 + 100 * Real.sqrt 3) (0, 1) ∧
    (reflect_velocity center (0, 1) (500, 300 + 100 * Real.sqrt 3)
      (300, 300 + 100 * Real.sqrt 3)).1 = (0, -1) ∧
    dot2 ((reflect_velocity center (0, 1) (500, 300 + 100 * Real.sqrt 3)
      (300, 300 + 100 * Real.sqrt 3)).1) (0, 1) < 0 := by
  have hv := hexVertices_angle0
  have hn : edgeNormal (500, 300 + 100 * Real.sqrt 3) (300, 300 + 100 * Real.sqrt 3)
      = (0, -1) := by
    unfold edgeNormal
    norm_num [sqrt_forty_thousand]
  have hrefl : (reflect_velocity center (0, 1) (500, 300 + 100 * Real.sqrt 3)
      (300, 300 + 100 * Real.sqrt 3)).1 = (0, -1) := by
    simp only [reflect_velocity, hn]
    norm_num
  refine ⟨by rw [hv]; rfl, by rw [hv]; rfl, ?_, hrefl, ?_⟩
  · refine ⟨by norm_num [sqnorm], by norm_num [dot2], ?_⟩
    simp only [dot2, center]
    nlinarith [sqrt3_pos]
  · rw [hrefl]
    norm_num [dot2]

lemma signedDist_shift (pos p1 p2 : ℝ × ℝ) (k : ℝ) :
    signedDist (pos.1 + (edgeNormal p1 p2).1 * k, pos.2 + (edgeNormal p1 p2).2 * k) p1 p2
      = signedDist pos p1 p2 + k * sqnorm (edgeNormal p1 p2) := by
  unfold signedDist sqnorm
  ring

/-- Claim C3 (amended): in a frame whose collision is resolved with the
entity on the interior side of the hit edge's line (signed distance `d ≥ 0`
along the code's normal), the corrected position returned by
`reflect_velocity` lies at perpendicular distance at least `ball_radius`
from the edge line.  When the entity has crossed the line (`d < 0`) the
push still goes along the same normal and can leave it closer than
`ball_radius` (see the counterexample). -/
theorem positional_correction_clears_radius (pos vel p1 p2 : ℝ × ℝ) (h : p1 ≠ p2)
    (hd : 0 ≤ signedDist pos p1 p2) :
    ball_radius ≤ |signedDist (reflect_velocity pos vel p1 p2).2 p1 p2| := by
  have hn := sqnorm_edgeNormal h
  by_cases hlt : |signedDist pos p1 p2| < ball_radius
  · have h2 : (reflect_velocity pos vel p1 p2).2
        = (pos.1 + (edgeNormal p1 p2).1 * (ball_radius - |signedDist pos p1 p2|),
           pos.2 + (edgeNormal p1 p2).2 * (ball_radius - |signedDist pos p1 p2|)) := by
      simp only [reflect_velocity]
      rw [if_pos hlt]
    rw [h2, signedDist_shift, hn, mul_one, abs_of_nonneg hd]
    have h3 : signedDist pos p1 p2 + (ball_radius - signedDist pos p1 p2)
        = ball_radius := by ring
    rw [h3, abs_of_nonneg (by norm_num [ball_radius] : (0:ℝ) ≤ ball_radius)]
  · push_neg at hlt
    have h2 : (reflect_velocity pos vel p1 p2).2 = pos := by
      simp only [reflect_velocity]
      rw [if_neg (not_lt.mpr hlt)]
    rw [h2]
    exact hlt

/-- Witness for the amended C3: entity at `(0.5, 3)` on the interior side of
the edge from `(0,0)` to `(1,0)`. -/
theorem positional_correction_clears_radius_witness :
    ((0, 0) : ℝ × ℝ) ≠ (1, 0) ∧
    0 ≤ signedDist (0.5, 3) (0, 0) (1, 0) ∧
    ball_radius ≤ |signedDist (reflect_velocity (0.5, 3) (1, 1) (0, 0) (1, 0)).2 (0, 0) (1, 0)| := by
  have hne : ((0, 0) : ℝ × ℝ) ≠ (1, 0) := by
    simp [Prod.ext_iff]
  have hsd : signedDist (0.5, 3) (0, 0) (1, 0) = 3 := by
    unfold signedDist edgeNormal
    norm_num [Real.sqrt_one]
  exact ⟨hne, by rw [hsd]; norm_num,
    positional_correction_clears_radius (0.5, 3) (1, 1) (0, 0) (1, 0) hne
      (by rw [hsd]; norm_num)⟩

/-- The code's normal of the top edge of the hexagon at angle 0 points
toward the interior: it is `(0, -1)`. -/
lemma edgeNormal_topEdge :
    edgeNormal (500, 300 + 100 * Real.sqrt 3) (300, 300 + 100 * Real.sqrt 3) = (0, -1) := by
  unfold edgeNormal
  norm_num [sqrt_forty_thousand]

lemma sqrt_twenty_five : Real.sqrt 25 = 5 := by
  rw [show (25:ℝ) = 5 ^ 2 by norm_num, Real.sqrt_sq (by norm_num : (0:ℝ) ≤ 5)]

/-- Counterexample to claim C3 as stated: at angle 0 the hexagon's top edge
runs from vertex 1 `(500, 300+100√3)` to vertex 2 `(300, 300+100√3)`; an
entity at `(400, 305+100√3)` — five units past the edge line — qualifies as
a collision (projection 100 ∈ [0, 200], distance 5 ≤ 10), yet the resolver's
positional correction moves it to `(400, 300+100√3)`, exactly on the edge
line, at perpendicular distance 0 < ball_radius. -/
theorem positional_correction_counterexample :
    (get_hexagon_vertices center hex_size 0).getD 1 (0, 0)
        = (500, 300 + 100 * Real.sqrt 3) ∧
    (get_hexagon_vertices center hex_size 0).getD 2 (0, 0)
        = (300, 300 + 100 * Real.sqrt 3) ∧
    qualifies (400, 305 + 100 * Real.sqrt 3) (500, 300 + 100 * Real.sqrt 3)
      (300, 300 + 100 * Real.sqrt 3) ∧
    (reflect_velocity (400, 305 + 100 * Real.sqrt 3) (0, 0)
      (500, 300 + 100 * Real.sqrt 3) (300, 300 + 100 * Real.sqrt 3)).2
        = (400, 300 + 100 * Real.sqrt 3) ∧
    |signedDist (400, 300 + 100 * Real.sqrt 3) (500, 300 + 100 * Real.sqrt 3)
      (300, 300 + 100 * Real.sqrt 3)| = 0 ∧
    (0 : ℝ) < ball_radius := by
  have hv := hexVertices_angle0
  have hw : wallLen (500, 300 + 100 * Real.sqrt 3) (300, 300 + 100 * Real.sqrt 3) = 200 := by
    unfold wallLen
    norm_num [sqrt_forty_thousand]
  have hp : projLen (400, 305 + 100 * Real.sqrt 3) (500, 300 + 100 * Real.sqrt 3)
      (300, 300 + 100 * Real.sqrt 3) = 100 := by
    unfold projLen
    rw [hw]
    ring_nf
  have hpd : perpDist (400, 305 + 100 * Real.sqrt 3) (500, 300 + 100 * Real.sqrt 3)
      (300, 300 + 100 * Real.sqrt 3) = 5 := by
    unfold perpDist
    rw [hw, hp]
    have harg : ((400:ℝ) - 500 - 100 * ((300 - 500) / 200)) ^ 2 +
        (305 + 100 * Real.sqrt 3 - (300 + 100 * Real.sqrt 3) -
          100 * ((300 + 100 * Real.sqrt 3 - (300 + 100 * Real.sqrt 3)) / 200)) ^ 2 = 25 := by
      ring
    rw [harg, sqrt_twenty_five]
  have hsd : signedDist (400, 305 + 100 * Real.sqrt 3) (500, 300 + 100 * Real.sqrt 3)
      (300, 300 + 100 * Real.sqrt 3) = -5 := by
    unfold signedDist
    rw [edgeNormal_topEdge]
    ring_nf
  have hrefl : (reflect_velocity (400, 305 + 100 * Real.sqrt 3) (0, 0)
      (500, 300 + 100 * Real.sqrt 3) (300, 300 + 100 * Real.sqrt 3)).2
        = (400, 300 + 100 * Real.sqrt 3) := by
    simp only [reflect_velocity, edgeNormal_topEdge, hsd]
    rw [if_pos (by norm_num [ball_radius] : |(-5:ℝ)| < ball_radius)]
    unfold ball_radius
    norm_num [Prod.ext_iff]
    ring
  refine ⟨by rw [hv]; rfl, by rw [hv]; rfl, ?_, hrefl, ?_, by norm_num [ball_radius]⟩
  · exact ⟨⟨by rw [hp]; norm_num, by rw [hp, hw]; norm_num⟩,
      by rw [hpd]; norm_num [ball_radius]⟩
  · have : signedDist (400, 300 + 100 * Real.sqrt 3) (500, 300 + 100 * Real.sqrt 3)
        (300, 300 + 100 * Real.sqrt 3) = 0 := by
      unfold signedDist
      rw [edgeNormal_topEdge]
      ring_nf
    rw [this, abs_zero]

lemma speed_vertex (c : ℝ × ℝ) (r θ : ℝ) (hr : 0 ≤ r) :
    speed ((c.1 + r * Real.cos θ) - c.1, (c.2 + r * Real.sin θ) - c.2) = r := by
  unfold speed sqnorm
  have harg : ((c.1 + r * Real.cos θ) - c.1) ^ 2 + ((c.2 + r * Real.sin θ) - c.2) ^ 2
      = r ^ 2 := by
    have h := Real.sin_sq_add_cos_sq θ
    linear_combination r ^ 2 * h
  rw [harg, Real.sqrt_sq hr]

/-- The hexagon vertex list written out, for arbitrary center, size and
angle. -/
lemma get_hexagon_vertices_eval (c : ℝ × ℝ) (r a : ℝ) :
    get_hexagon_vertices c r a =
      [(c.1 + r * Real.cos (radians (a + 60 * 0)), c.2 + r * Real.sin (radians (a + 60 * 0))),
       (c.1 + r * Real.cos (radians (a + 60 * 1)), c.2 + r * Real.sin (radians (a + 60 * 1))),
       (c.1 + r * Real.cos (radians (a + 60 * 2)), c.2 + r * Real.sin (radians (a + 60 * 2))),
       (c.1 + r * Real.cos (radians (a + 60 * 3)), c.2 + r * Real.sin (radians (a + 60 * 3))),
       (c.1 + r * Real.cos (radians (a + 60 * 4)), c.2 + r * Real.sin (radians (a + 60 * 4))),
       (c.1 + r * Real.cos (radians (a + 60 * 5)), c.2 + r * Real.sin (radians (a + 60 * 5)))] := by
  have h6 : List.range 6 = [0, 1, 2, 3, 4, 5] := rfl
  simp only [get_hexagon_vertices, h6, List.map_cons, List.map_nil]
  norm_num

/-- Claim C5 (amended): the geometry provider is specialized to `N = 6`
(a hexagon): for every center, positive circumradius and rotation angle it
returns exactly six vertices, vertex `i` at distance `circumradius` from
the center, at angle `angleDegrees + i * 60` degrees, and consecutive
vertex angles differ by exactly `60 = 360/6` degrees. -/
theorem geometry_provider_hexagon (c : ℝ × ℝ) (r a : ℝ) (hr : 0 < r) :
    (get_hexagon_vertices c r a).length = 6 ∧
    (∀ i : ℕ, i < 6 →
      speed (((get_hexagon_vertices c r a).getD i (0, 0)).1 - c.1,
             ((get_hexagon_vertices c r a).getD i (0, 0)).2 - c.2) = r ∧
      (get_hexagon_vertices c r a).getD i (0, 0)
        = (c.1 + r * Real.cos (radians (a + 60 * (i : ℝ))),
           c.2 + r * Real.sin (radians (a + 60 * (i : ℝ))))) ∧
    (∀ i : ℕ, i < 5 →
      radians (a + 60 * ((i : ℝ) + 1)) - radians (a + 60 * (i : ℝ)) = radians 60) := by
  refine ⟨by simp [get_hexagon_vertices], ?_, ?_⟩
  · intro i hi
    rw [get_hexagon_vertices_eval]
    interval_cases i <;>
      exact ⟨speed_vertex c r _ hr.le, by norm_num⟩
  · intro i hi
    unfold radians
    ring

/-- Witness for the amended C5 at center `(400, 300)`, circumradius 200,
angle 0. -/
theorem geometry_provider_hexagon_witness :
    (0 : ℝ) < 200 ∧
    ((get_hexagon_vertices center 200 0).length = 6 ∧
     (∀ i : ℕ, i < 6 →
       speed (((get_hexagon_vertices center 200 0).getD i (0, 0)).1 - center.1,
              ((get_hexagon_vertices center 200 0).getD i (0, 0)).2 - center.2) = 200 ∧
       (get_hexagon_vertices center 200 0).getD i (0, 0)
         = (center.1 + 200 * Real.cos (radians (0 + 60 * (i : ℝ))),
            center.2 + 200 * Real.sin (radians (0 + 60 * (i : ℝ))))) ∧
     (∀ i : ℕ, i < 5 →
       radians (0 + 60 * ((i : ℝ) + 1)) - radians (0 + 60 * (i : ℝ)) = radians 60)) :=
  ⟨by norm_num, geometry_provider_hexagon center 200 0 (by norm_num)⟩

/-- Counterexample to claim C5 as stated: the claim quantifies over every
vertex count `N ≥ 3`, but the provider has no count parameter — for
`N = 3 ≥ 3`, center `(0,0)`, circumradius `1 > 0`, angle `0` it still
returns 6 vertices, not 3. -/
theorem geometry_provider_count_counterexample :
    (3 : ℕ) ≤ 3 ∧ (0 : ℝ) < 1 ∧
    (get_hexagon_vertices (0, 0) 1 0).length = 6 ∧ (6 : ℕ) ≠ 3 := by
  refine ⟨le_refl 3, by norm_num, ?_, by norm_num⟩
  simp [get_hexagon_vertices]

lemma step_angle (st : SimState) : (step st).angle = st.angle + rotation_speed := rfl

lemma step_iterate_angle (st : SimState) (n : ℕ) :
    (step^[n] st).angle = st.angle + rotation_speed * n := by
  induction n with
  | zero => simp
  | succ k ih =>
      rw [Function.iterate_succ_apply', step_angle, ih]
      push_cast
      ring

/-- Claim C6 (amended): the stored rotation angle is advanced by
`rotation_speed = 2` degrees per frame with no modulo-360 normalization:
after `n` frames it equals the initial angle plus `2 * n`, and it grows
without bound over a long run. -/
theorem hex_angle_no_normalization (st : SimState) (n : ℕ) :
    (step^[n] st).angle = st.angle + rotation_speed * n ∧
    ∀ M : ℝ, ∃ m : ℕ, M < (step^[m] st).angle := by
  refine ⟨step_iterate_angle st n, ?_⟩
  intro M
  obtain ⟨m, hm⟩ := exists_nat_gt (M - st.angle)
  refine ⟨m, ?_⟩
  rw [step_iterate_angle st m]
  unfold rotation_speed
  nlinarith [Nat.cast_nonneg (α := ℝ) m]

/-- Counterexample to claim C6 as stated: starting from the source's initial
state (`hex_angle = 0`, ball at `(400, 200)` with velocity `(3, 2)`), after
180 frames the stored angle is 360, which is not in the canonical range
`[0, 360)`. -/
theorem hex_angle_wrap_counterexample :
    (step^[180] ⟨0, (400, 200), (3, 2)⟩).angle = 360 ∧
    ¬ ((step^[180] ⟨0, (400, 200), (3, 2)⟩).angle < 360) := by
  have h := step_iterate_angle ⟨0, (400, 200), (3, 2)⟩ 180
  constructor <;> rw [h] <;> norm_num [rotation_speed]

end HexSim

namespace Nibbles

/-- Claim C10: whenever the computed new head position coincides with an
existing snake segment, `move_snake` transitions the game state to
`GAME_OVER` and leaves the snake body, the direction, the food position and
the score unchanged. -/
theorem move_snake_game_over_atomic (g : GameState) (newFood : ℤ × ℤ)
    (h : newHead g ∈ g.snake) :
    (move_snake g newFood).phase = GAME_OVER ∧
    (move_snake g newFood).snake = g.snake ∧
    (move_snake g newFood).dir = g.dir ∧
    (move_snake g newFood).food = g.food ∧
    (move_snake g newFood).score = g.score := by
  simp [move_snake, h]

/-- Witness for C10: a two-segment snake heading right into its own second
segment. -/
theorem move_snake_game_over_atomic_witness :
    newHead (GameState.mk [(400, 300), (420, 300)] (20, 0) (100, 100) 0 PLAYING 0
        [0, 0, 0] "") ∈
      (GameState.mk [(400, 300), (420, 300)] (20, 0) (100, 100) 0 PLAYING 0
        [0, 0, 0] "").snake ∧
    ((move_snake (GameState.mk [(400, 300), (420, 300)] (20, 0) (100, 100) 0 PLAYING 0
        [0, 0, 0] "") (0, 0)).phase = GAME_OVER ∧
     (move_snake (GameState.mk [(400, 300), (420, 300)] (20, 0) (100, 100) 0 PLAYING 0
        [0, 0, 0] "") (0, 0)).snake = [(400, 300), (420, 300)] ∧
     (move_snake (GameState.mk [(400, 300), (420, 300)] (20, 0) (100, 100) 0 PLAYING 0
        [0, 0, 0] "") (0, 0)).dir = (20, 0) ∧
     (move_snake (GameState.mk [(400, 300), (420, 300)] (20, 0) (100, 100) 0 PLAYING 0
        [0, 0, 0] "") (0, 0)).food = (100, 100) ∧
     (move_snake (GameState.mk [(400, 300), (420, 300)] (20, 0) (100, 100) 0 PLAYING 0
        [0, 0, 0] "") (0, 0)).score = 0) := by
  have h : newHead (GameState.mk [(400, 300), (420, 300)] (20, 0) (100, 100) 0 PLAYING 0
      [0, 0, 0] "") ∈
      (GameState.mk [(400, 300), (420, 300)] (20, 0) (100, 100) 0 PLAYING 0
        [0, 0, 0] "").snake := by decide
  exact ⟨h, move_snake_game_over_atomic _ (0, 0) h⟩

/-- Claim C9 (amended): `save_high_scores` writes the three largest scores
in descending order, each terminated by a newline, whenever at least three
scores are present; the default file created when `high_scores.txt` is
absent, however, is `"0\n0\n0"`, whose final integer is not
newline-terminated. -/
theorem save_high_scores_top3 (l : List ℤ) (h : 3 ≤ l.length) :
    save_high_scores l
        = String.join (((sortDesc l).take 3).map (fun score => toString score ++ "\n")) ∧
    ((sortDesc l).take 3).length = 3 ∧
    List.Sorted (· ≥ ·) ((sortDesc l).take 3) ∧
    (∀ x ∈ (sortDesc l).take 3, x ∈ l) ∧
    (∀ y ∈ (sortDesc l).drop 3, ∀ x ∈ (sortDesc l).take 3, y ≤ x) := by
  haveI htot : IsTotal ℤ (· ≥ ·) := ⟨fun a b => le_total b a⟩
  haveI htrans : IsTrans ℤ (· ≥ ·) := ⟨fun a b c hab hbc => le_trans hbc hab⟩
  have hperm : List.Perm (sortDesc l) l := List.perm_insertionSort (· ≥ ·) l
  have hsorted : List.Sorted (· ≥ ·) (sortDesc l) :=
    List.sorted_insertionSort (· ≥ ·) l
  refine ⟨rfl, ?_, ?_, ?_, ?_⟩
  · rw [List.length_take, hperm.length_eq]
    omega
  · exact hsorted.sublist (List.take_sublist 3 (sortDesc l))
  · intro x hx
    exact hperm.mem_iff.mp ((List.take_sublist 3 (sortDesc l)).mem hx)
  · have hsplit : List.Pairwise (· ≥ ·) ((sortDesc l).take 3 ++ (sortDesc l).drop 3) := by
      rw [List.take_append_drop]
      exact hsorted
    have hcross := (List.pairwise_append.mp hsplit).2.2
    intro y hy x hx
    exact hcross x hx y hy

/-- Witness for the amended C9 on the score list `[5, 1, 9, 3]`. -/
theorem save_high_scores_top3_witness :
    3 ≤ ([5, 1, 9, 3] : List ℤ).length ∧
    (save_high_scores [5, 1, 9, 3]
        = String.join (((sortDesc [5, 1, 9, 3]).take 3).map
            (fun score => toString score ++ "\n")) ∧
     ((sortDesc ([5, 1, 9, 3] : List ℤ)).take 3).length = 3 ∧
     List.Sorted (· ≥ ·) ((sortDesc ([5, 1, 9, 3] : List ℤ)).take 3) ∧
     (∀ x ∈ (sortDesc ([5, 1, 9, 3] : List ℤ)).take 3, x ∈ ([5, 1, 9, 3] : List ℤ)) ∧
     (∀ y ∈ (sortDesc ([5, 1, 9, 3] : List ℤ)).drop 3,
        ∀ x ∈ (sortDesc ([5, 1, 9, 3] : List ℤ)).take 3, y ≤ x)) :=
  ⟨by norm_num, save_high_scores_top3 [5, 1, 9, 3] (by norm_num)⟩

/-- Counterexample to claim C9 as stated: the file created when
`high_scores.txt` is absent is `"0\n0\n0"` — its third integer is not
newline-terminated, unlike the content `save_high_scores` would write for
the same scores. -/
theorem high_score_default_newline_counterexample :
    initialHighScoreContent = "0\n0\n0" ∧
    save_high_scores [0, 0, 0] = "0\n0\n0\n" ∧
    initialHighScoreContent ≠ save_high_scores [0, 0, 0] := by
  refine ⟨rfl, by decide, by decide⟩

end Nibbles

namespace HexSim

/-- Squared distance between two points of a circle of radius `r`, in terms
of the angle difference. -/
lemma chord_sq (c : ℝ × ℝ) (r θ₁ θ₂ : ℝ) :
    ((c.1 + r * Real.cos θ₂) - (c.1 + r * Real.cos θ₁)) ^ 2 +
      ((c.2 + r * Real.sin θ₂) - (c.2 + r * Real.sin θ₁)) ^ 2
        = r ^ 2 * (2 - 2 * Real.cos (θ₂ - θ₁)) := by
  rw [Real.cos_sub]
  have h1 := Real.sin_sq_add_cos_sq θ₁
  have h2 := Real.sin_sq_add_cos_sq θ₂
  linear_combination r ^ 2 * h1 + r ^ 2 * h2

/-- Two vertices of the circumcircle whose angles differ by 60 degrees are
distinct, and the edge-processing code reaches its non-error branch on
them. -/
lemma hexEdge_ok (c : ℝ × ℝ) (r : ℝ) (hr : 0 < r) (θ₁ θ₂ : ℝ)
    (hcos : Real.cos (θ₂ - θ₁) = 1 / 2) (pos : ℝ × ℝ) :
    ((c.1 + r * Real.cos θ₁, c.2 + r * Real.sin θ₁) : ℝ × ℝ)
        ≠ (c.1 + r * Real.cos θ₂, c.2 + r * Real.sin θ₂) ∧
    ∃ P, detectEdge pos ball_radius
        (c.1 + r * Real.cos θ₁, c.2 + r * Real.sin θ₁)
        (c.1 + r * Real.cos θ₂, c.2 + r * Real.sin θ₂) = Except.ok P := by
  have h := chord_sq c r θ₁ θ₂
  rw [hcos] at h
  have h' : ((c.1 + r * Real.cos θ₂) - (c.1 + r * Real.cos θ₁)) ^ 2 +
      ((c.2 + r * Real.sin θ₂) - (c.2 + r * Real.sin θ₁)) ^ 2 = r ^ 2 := by
    rw [h]; ring
  constructor
  · intro heq
    simp only [Prod.mk.injEq] at heq
    obtain ⟨h1, h2⟩ := heq
    have d1 : (c.1 + r * Real.cos θ₂) - (c.1 + r * Real.cos θ₁) = 0 := by
      linarith
    have d2 : (c.2 + r * Real.sin θ₂) - (c.2 + r * Real.sin θ₁) = 0 := by
      linarith
    rw [d1, d2] at h'
    nlinarith [hr]
  · have hlen : Real.sqrt (((c.1 + r * Real.cos θ₂) - (c.1 + r * Real.cos θ₁)) ^ 2 +
        ((c.2 + r * Real.sin θ₂) - (c.2 + r * Real.sin θ₁)) ^ 2) = r := by
      rw [h', Real.sqrt_sq hr.le]
    simp only [detectEdge]
    rw [if_neg (by rw [hlen]; exact hr.ne')]
    exact ⟨_, rfl⟩

/-- Claim C8 (amended): the collision loop contains no zero-length guard —
processing a degenerate edge is a division-by-zero failure (see the
counterexample) — but every edge of the generated hexagon with positive
circumradius has length equal to the circumradius, so the failure is
unreachable on valid input: each per-edge test reaches its non-error
branch. -/
theorem collision_loop_zero_length_guard (c : ℝ × ℝ) (r a : ℝ) (hr : 0 < r)
    (i : ℕ) (hi : i < 6) (pos : ℝ × ℝ) :
    (get_hexagon_vertices c r a).getD i (0, 0)
        ≠ (get_hexagon_vertices c r a).getD ((i + 1) % 6) (0, 0) ∧
    ∃ P, detectEdge pos ball_radius ((get_hexagon_vertices c r a).getD i (0, 0))
        ((get_hexagon_vertices c r a).getD ((i + 1) % 6) (0, 0)) = Except.ok P := by
  rw [get_hexagon_vertices_eval]
  interval_cases i
  · exact hexEdge_ok c r hr _ _ (by
      rw [show radians (a + 60 * 1) - radians (a + 60 * 0) = radians 60 by
        unfold radians; ring, cos_rad60]) pos
  · exact hexEdge_ok c r hr _ _ (by
      rw [show radians (a + 60 * 2) - radians (a + 60 * 1) = radians 60 by
        unfold radians; ring, cos_rad60]) pos
  · exact hexEdge_ok c r hr _ _ (by
      rw [show radians (a + 60 * 3) - radians (a + 60 * 2) = radians 60 by
        unfold radians; ring, cos_rad60]) pos
  · exact hexEdge_ok c r hr _ _ (by
      rw [show radians (a + 60 * 4) - radians (a + 60 * 3) = radians 60 by
        unfold radians; ring, cos_rad60]) pos
  · exact hexEdge_ok c r hr _ _ (by
      rw [show radians (a + 60 * 5) - radians (a + 60 * 4) = radians 60 by
        unfold radians; ring, cos_rad60]) pos
  · exact hexEdge_ok c r hr _ _ (by
      rw [show radians (a + 60 * 0) - radians (a + 60 * 5) = -(radians 300) by
        unfold radians; ring, Real.cos_neg, cos_rad300]) pos

/-- Witness for the amended C8: edge 0 of the hexagon at center `(400,300)`,
circumradius 200, angle 0. -/
theorem collision_loop_zero_length_guard_witness :
    (0 : ℝ) < 200 ∧ (0 : ℕ) < 6 ∧
    ((get_hexagon_vertices center 200 0).getD 0 (0, 0)
        ≠ (get_hexagon_vertices center 200 0).getD ((0 + 1) % 6) (0, 0) ∧
     ∃ P, detectEdge (0, 0) ball_radius ((get_hexagon_vertices center 200 0).getD 0 (0, 0))
        ((get_hexagon_vertices center 200 0).getD ((0 + 1) % 6) (0, 0)) = Except.ok P) :=
  ⟨by norm_num, by norm_num,
    collision_loop_zero_length_guard center 200 0 (by norm_num) 0 (by norm_num) (0, 0)⟩

/-- Counterexample to claim C8 as stated: processing a zero-length edge
(`p1 == p2`) is not skipped — the unit-direction division raises
`ZeroDivisionError`, so the per-edge computation never reaches a non-error
result. -/
theorem zero_length_edge_counterexample :
    detectEdge (0, 0) ball_radius (1, 1) (1, 1) = Except.error "ZeroDivisionError" ∧
    ¬ ∃ P, detectEdge (0, 0) ball_radius (1, 1) (1, 1) = Except.ok P := by
  have h : detectEdge (0, 0) ball_radius (1, 1) (1, 1)
      = Except.error "ZeroDivisionError" := by
    simp only [detectEdge]
    norm_num [Real.sqrt_zero]
  refine ⟨h, ?_⟩
  rw [h]
  rintro ⟨P, hP⟩
  exact Except.noConfusion hP

lemma wallLen_edge0 : wallLen (600, 300) (500, 300 + 100 * Real.sqrt 3) = 200 := by
  unfold wallLen
  rw [show ((500:ℝ) - 600) ^ 2 + (300 + 100 * Real.sqrt 3 - 300) ^ 2 = 40000 by
    linear_combination (10000:ℝ) * sqrt3_sq]
  exact sqrt_forty_thousand

lemma wallLen_edge1 :
    wallLen (500, 300 + 100 * Real.sqrt 3) (300, 300 + 100 * Real.sqrt 3) = 200 := by
  unfold wallLen
  rw [show ((300:ℝ) - 500) ^ 2 +
      (300 + 100 * Real.sqrt 3 - (300 + 100 * Real.sqrt 3)) ^ 2 = 40000 by ring]
  exact sqrt_forty_thousand

lemma wallLen_edge2 : wallLen (300, 300 + 100 * Real.sqrt 3) (200, 300) = 200 := by
  unfold wallLen
  rw [show ((200:ℝ) - 300) ^ 2 + (300 - (300 + 100 * Real.sqrt 3)) ^ 2 = 40000 by
    linear_combination (10000:ℝ) * sqrt3_sq]
  exact sqrt_forty_thousand

lemma wallLen_edge3 : wallLen (200, 300) (300, 300 - 100 * Real.sqrt 3) = 200 := by
  unfold wallLen
  rw [show ((300:ℝ) - 200) ^ 2 + (300 - 100 * Real.sqrt 3 - 300) ^ 2 = 40000 by
    linear_combination (10000:ℝ) * sqrt3_sq]
  exact sqrt_forty_thousand

lemma wallLen_edge4 :
    wallLen (300, 300 - 100 * Real.sqrt 3) (500, 300 - 100 * Real.sqrt 3) = 200 := by
  unfold wallLen
  rw [show ((500:ℝ) - 300) ^ 2 +
      (300 - 100 * Real.sqrt 3 - (300 - 100 * Real.sqrt 3)) ^ 2 = 40000 by ring]
  exact sqrt_forty_thousand

lemma wallLen_edge5 : wallLen (500, 300 - 100 * Real.sqrt 3) (600, 300) = 200 := by
  unfold wallLen
  rw [show ((600:ℝ) - 500) ^ 2 + (300 - (300 - 100 * Real.sqrt 3)) ^ 2 = 40000 by
    linear_combination (10000:ℝ) * sqrt3_sq]
  exact sqrt_forty_thousand

lemma scanEdge_not_qualifies {p1 p2 : ℝ × ℝ} {s : ScanState}
    (h : ¬ qualifies s.pos p1 p2) : scanEdge p1 p2 s = s := by
  unfold qualifies at h
  unfold scanEdge
  by_cases hin : 0 ≤ projLen s.pos p1 p2 ∧ projLen s.pos p1 p2 ≤ wallLen p1 p2
  · rw [if_pos hin, if_neg (fun hd => h ⟨hin, hd⟩)]
  · rw [if_neg hin]

lemma collisionScan_free {vs : List (ℝ × ℝ)} {s : ScanState}
    (h : FreeMotion vs s.pos) : collisionScan vs s = s := by
  unfold collisionScan
  have h6 : List.range 6 = [0, 1, 2, 3, 4, 5] := rfl
  rw [h6]
  simp only [List.foldl_cons, List.foldl_nil]
  rw [scanEdge_not_qualifies (h 0 (by norm_num)),
      scanEdge_not_qualifies (h 1 (by norm_num)),
      scanEdge_not_qualifies (h 2 (by norm_num)),
      scanEdge_not_qualifies (h 3 (by norm_num)),
      scanEdge_not_qualifies (h 4 (by norm_num)),
      scanEdge_not_qualifies (h 5 (by norm_num))]

lemma step_free (st : SimState) (hv : st.vel = (0, 0))
    (hfree : FreeMotion (get_hexagon_vertices center hex_size
        (st.angle + rotation_speed)) st.pos) :
    step st = ⟨st.angle + rotation_speed, st.pos, st.vel⟩ := by
  unfold step
  rw [hv]
  simp only [add_zero, Prod.mk.eta]
  rw [collisionScan_free hfree]

lemma step_iterate_free (st : SimState) (hv : st.vel = (0, 0)) :
    ∀ n : ℕ, (∀ k : ℕ, k < n → FreeMotion (get_hexagon_vertices center hex_size
        (st.angle + rotation_speed * ((k : ℝ) + 1))) st.pos) →
      step^[n] st = ⟨st.angle + rotation_speed * (n : ℝ), st.pos, st.vel⟩ := by
  intro n
  induction n with
  | zero =>
      intro _
      simp
  | succ k ih =>
      intro h
      rw [Function.iterate_succ_apply', ih (fun j hj => h j (by omega))]
      have hfree' : FreeMotion (get_hexagon_vertices center hex_size
          ((st.angle + rotation_speed * (k : ℝ)) + rotation_speed)) st.pos := by
        have hh := h k (by omega)
        rw [show st.angle + rotation_speed * ((k : ℝ) + 1)
            = (st.angle + rotation_speed * (k : ℝ)) + rotation_speed by ring] at hh
        exact hh
      rw [step_free ⟨st.angle + rotation_speed * (k : ℝ), st.pos, st.vel⟩ hv hfree']
      simp only [SimState.mk.injEq, and_true, true_and]
      push_cast
      ring

/-- Claim C7: an entity with zero velocity that stays in Free Motion (no
edge of the rotating polygon qualifies against it on any of the `n` frames)
keeps exactly the same position after any number of `step` calls, whatever
the polygon's rotation does. -/
theorem zero_velocity_free_motion_fixed (st : SimState) (hv : st.vel = (0, 0)) (n : ℕ)
    (hfree : ∀ k : ℕ, k < n → FreeMotion (get_hexagon_vertices center hex_size
        (st.angle + rotation_speed * ((k : ℝ) + 1))) st.pos) :
    (step^[n] st).pos = st.pos := by
  rw [step_iterate_free st hv n hfree]

/-- Witness for C7: the entity rests at `(10000, 300)` with zero velocity;
at the frame angle 0 no hexagon edge qualifies (every projection falls
outside `[0, wall_len]`), and one step leaves the position unchanged. -/
theorem zero_velocity_free_motion_fixed_witness :
    (SimState.mk (-2) (10000, 300) (0, 0)).vel = (0, 0) ∧
    (∀ k : ℕ, k < 1 → FreeMotion (get_hexagon_vertices center hex_size
        ((-2 : ℝ) + rotation_speed * ((k : ℝ) + 1))) (10000, 300)) ∧
    (step^[1] (SimState.mk (-2) (10000, 300) (0, 0))).pos = (10000, 300) := by
  have hp0 : projLen (10000, 300) (600, 300) (500, 300 + 100 * Real.sqrt 3) = -4700 := by
    unfold projLen
    rw [wallLen_edge0]
    ring
  have hp1 : projLen (10000, 300) (500, 300 + 100 * Real.sqrt 3)
      (300, 300 + 100 * Real.sqrt 3) = -9500 := by
    unfold projLen
    rw [wallLen_edge1]
    ring
  have hp2 : projLen (10000, 300) (300, 300 + 100 * Real.sqrt 3) (200, 300) = -4700 := by
    unfold projLen
    rw [wallLen_edge2]
    linear_combination (50:ℝ) * sqrt3_sq
  have hp3 : projLen (10000, 300) (200, 300) (300, 300 - 100 * Real.sqrt 3) = 4900 := by
    unfold projLen
    rw [wallLen_edge3]
    ring
  have hp4 : projLen (10000, 300) (300, 300 - 100 * Real.sqrt 3)
      (500, 300 - 100 * Real.sqrt 3) = 9700 := by
    unfold projLen
    rw [wallLen_edge4]
    ring
  have hp5 : projLen (10000, 300) (500, 300 - 100 * Real.sqrt 3) (600, 300) = 4900 := by
    unfold projLen
    rw [wallLen_edge5]
    linear_combination (50:ℝ) * sqrt3_sq
  have hfree : ∀ k : ℕ, k < 1 → FreeMotion (get_hexagon_vertices center hex_size
      ((-2 : ℝ) + rotation_speed * ((k : ℝ) + 1))) (10000, 300) := by
    intro k hk
    interval_cases k
    rw [show (-2 : ℝ) + rotation_speed * (((0:ℕ) : ℝ) + 1) = 0 by
      norm_num [rotation_speed]]
    rw [hexVertices_angle0]
    intro i hi
    interval_cases i
    · rw [show hexList0.getD 0 (0, 0) = ((600 : ℝ), (300 : ℝ)) from rfl,
        show hexList0.getD ((0 + 1) % 6) (0, 0)
          = ((500 : ℝ), 300 + 100 * Real.sqrt 3) from rfl]
      rintro ⟨⟨h1, h2⟩, -⟩
      rw [hp0] at h1
      norm_num at h1
    · rw [show hexList0.getD 1 (0, 0) = ((500 : ℝ), 300 + 100 * Real.sqrt 3) from rfl,
        show hexList0.getD ((1 + 1) % 6) (0, 0)
          = ((300 : ℝ), 300 + 100 * Real.sqrt 3) from rfl]
      rintro ⟨⟨h1, h2⟩, -⟩
      rw [hp1] at h1
      norm_num at h1
    · rw [show hexList0.getD 2 (0, 0) = ((300 : ℝ), 300 + 100 * Real.sqrt 3) from rfl,
        show hexList0.getD ((2 + 1) % 6) (0, 0) = ((200 : ℝ), (300 : ℝ)) from rfl]
      rintro ⟨⟨h1, h2⟩, -⟩
      rw [hp2] at h1
      norm_num at h1
    · rw [show hexList0.getD 3 (0, 0) = ((200 : ℝ), (300 : ℝ)) from rfl,
        show hexList0.getD ((3 + 1) % 6) (0, 0)
          = ((300 : ℝ), 300 - 100 * Real.sqrt 3) from rfl]
      rintro ⟨⟨h1, h2⟩, -⟩
      rw [hp3, wallLen_edge3] at h2
      norm_num at h2
    · rw [show hexList0.getD 4 (0, 0) = ((300 : ℝ), 300 - 100 * Real.sqrt 3) from rfl,
        show hexList0.getD ((4 + 1) % 6) (0, 0)
          = ((500 : ℝ), 300 - 100 * Real.sqrt 3) from rfl]
      rintro ⟨⟨h1, h2⟩, -⟩
      rw [hp4, wallLen_edge4] at h2
      norm_num at h2
    · rw [show hexList0.getD 5 (0, 0) = ((500 : ℝ), 300 - 100 * Real.sqrt 3) from rfl,
        show hexList0.getD ((5 + 1) % 6) (0, 0) = ((600 : ℝ), (300 : ℝ)) from rfl]
      rintro ⟨⟨h1, h2⟩, -⟩
      rw [hp5, wallLen_edge5] at h2
      norm_num at h2
  exact ⟨rfl, hfree,
    zero_velocity_free_motion_fixed (SimState.mk (-2) (10000, 300) (0, 0)) rfl 1 hfree⟩

lemma sqrt_hundred : Real.sqrt 100 = 10 := by
  rw [show (100:ℝ) = 10 ^ 2 by norm_num, Real.sqrt_sq (by norm_num : (0:ℝ) ≤ 10)]

lemma scanEdge_count_le (p1 p2 : ℝ × ℝ) (s : ScanState) :
    (scanEdge p1 p2 s).count ≤ s.count + 1 := by
  unfold scanEdge
  split_ifs <;> simp

lemma collisionScan_count_le (vs : List (ℝ × ℝ)) (s : ScanState) :
    (collisionScan vs s).count ≤ s.count + 6 := by
  unfold collisionScan
  have key : ∀ (l : List ℕ) (t : ScanState),
      ((l.foldl (fun t i =>
          scanEdge (vs.getD i (0, 0)) (vs.getD ((i + 1) % 6) (0, 0)) t) t).count)
        ≤ t.count + l.length := by
    intro l
    induction l with
    | nil => intro t; simp
    | cons a as ih =>
        intro t
        simp only [List.foldl_cons, List.length_cons]
        have h1 := ih (scanEdge (vs.getD a (0, 0)) (vs.getD ((a + 1) % 6) (0, 0)) t)
        have h2 := scanEdge_count_le (vs.getD a (0, 0)) (vs.getD ((a + 1) % 6) (0, 0)) t
        omega
  have := key (List.range 6) s
  simpa using this

/-- Claim C4 (amended): the collision loop of `step` does not stop at the
first qualifying edge — it has no break, and applies one reflection per edge
that qualifies at the moment it is scanned, so a frame can apply up to six
reflections (never more than one per edge); a frame near a vertex can apply
two (see the counterexample). -/
theorem reflections_per_frame_bound (st : SimState) : stepReflectionCount st ≤ 6 := by
  unfold stepReflectionCount
  have h := collisionScan_count_le
    (get_hexagon_vertices center hex_size (st.angle + rotation_speed))
    ⟨(st.pos.1 + st.vel.1, st.pos.2 + st.vel.2), st.vel, 0⟩
  simpa using h

lemma edgeNormal_edge0 :
    edgeNormal (600, 300) (500, 300 + 100 * Real.sqrt 3)
      = (-(Real.sqrt 3 / 2), -(1 / 2)) := by
  simp only [edgeNormal]
  rw [show (-((300:ℝ) + 100 * Real.sqrt 3 - 300)) ^ 2 + ((500:ℝ) - 600) ^ 2 = 40000 by
    linear_combination (10000:ℝ) * sqrt3_sq]
  rw [sqrt_forty_thousand]
  simp only [Prod.mk.injEq]
  constructor <;> ring

lemma signedDist_edge0 :
    signedDist (590, 300) (600, 300) (500, 300 + 100 * Real.sqrt 3) = 5 * Real.sqrt 3 := by
  unfold signedDist
  rw [edgeNormal_edge0]
  ring

/-- `reflect_velocity` at the first qualifying edge of the counterexample
frame: zero velocity is reflected to zero, and the positional correction
moves the ball to `(1195/2 - 5√3, 295 + 5√3/2)`. -/
lemma reflect_edge0 :
    reflect_velocity (590, 300) (0, 0) (600, 300) (500, 300 + 100 * Real.sqrt 3)
      = ((0, 0), (1195 / 2 - 5 * Real.sqrt 3, 295 + 5 * Real.sqrt 3 / 2)) := by
  simp only [reflect_velocity, edgeNormal_edge0]
  rw [signedDist_edge0, abs_of_nonneg (by positivity : (0:ℝ) ≤ 5 * Real.sqrt 3)]
  rw [if_pos (show 5 * Real.sqrt 3 < ball_radius by
    unfold ball_radius; nlinarith [sqrt3_lt])]
  unfold ball_radius
  simp only [Prod.mk.injEq]
  refine ⟨⟨by ring, by ring⟩, by linear_combination (5/2 : ℝ) * sqrt3_sq, by ring⟩

/-- Counterexample to claim C4 as stated: in the frame reached from
`hex_angle = -2` with the ball resting at `(590, 300)` (near vertex 0 of the
angle-0 hexagon), the collision loop applies `reflect_velocity` twice in the
same frame — once for edge 0 and, after the positional correction moves the
ball, once more for edge 5 — because the loop has no break. -/
theorem single_reflection_per_frame_counterexample :
    stepReflectionCount ⟨-2, (590, 300), (0, 0)⟩ = 2 ∧
    ¬ (stepReflectionCount ⟨-2, (590, 300), (0, 0)⟩ ≤ 1) := by
  have hq0 : projLen (590, 300) (600, 300) (500, 300 + 100 * Real.sqrt 3) = 5 := by
    unfold projLen
    rw [wallLen_edge0]
    ring
  have hd0 : perpDist (590, 300) (600, 300) (500, 300 + 100 * Real.sqrt 3)
      ≤ ball_radius := by
    unfold perpDist
    rw [hq0, wallLen_edge0]
    rw [show ((590:ℝ) - 600 - 5 * ((500 - 600) / 200)) ^ 2 +
        ((300:ℝ) - 300 - 5 * ((300 + 100 * Real.sqrt 3 - 300) / 200)) ^ 2 = 75 by
      linear_combination (25/4 : ℝ) * sqrt3_sq]
    unfold ball_radius
    rw [← sqrt_hundred]
    exact Real.sqrt_le_sqrt (by norm_num)
  have hS1 : scanEdge (600, 300) (500, 300 + 100 * Real.sqrt 3)
      ⟨(590, 300), (0, 0), 0⟩
        = ⟨(1195 / 2 - 5 * Real.sqrt 3, 295 + 5 * Real.sqrt 3 / 2), (0, 0), 1⟩ := by
    simp only [scanEdge]
    rw [if_pos ⟨by rw [hq0]; norm_num, by rw [hq0, wallLen_edge0]; norm_num⟩,
      if_pos hd0, reflect_edge0]
  have hq1 : projLen (1195 / 2 - 5 * Real.sqrt 3, 295 + 5 * Real.sqrt 3 / 2)
      (500, 300 + 100 * Real.sqrt 3) (300, 300 + 100 * Real.sqrt 3)
        = 5 * Real.sqrt 3 - 195 / 2 := by
    unfold projLen
    rw [wallLen_edge1]
    ring
  have hS2 : scanEdge (500, 300 + 100 * Real.sqrt 3) (300, 300 + 100 * Real.sqrt 3)
      ⟨(1195 / 2 - 5 * Real.sqrt 3, 295 + 5 * Real.sqrt 3 / 2), (0, 0), 1⟩
        = ⟨(1195 / 2 - 5 * Real.sqrt 3, 295 + 5 * Real.sqrt 3 / 2), (0, 0), 1⟩ := by
    simp only [scanEdge]
    rw [if_neg]
    rintro ⟨h1, -⟩
    rw [hq1] at h1
    nlinarith [sqrt3_lt]
  have hq2 : projLen (1195 / 2 - 5 * Real.sqrt 3, 295 + 5 * Real.sqrt 3 / 2)
      (300, 300 + 100 * Real.sqrt 3) (200, 300) = 5 * Real.sqrt 3 - 5 / 2 := by
    unfold projLen
    rw [wallLen_edge2]
    linear_combination (195/4 : ℝ) * sqrt3_sq
  have hd2 : ¬ (perpDist (1195 / 2 - 5 * Real.sqrt 3, 295 + 5 * Real.sqrt 3 / 2)
      (300, 300 + 100 * Real.sqrt 3) (200, 300) ≤ ball_radius) := by
    unfold perpDist
    rw [hq2, wallLen_edge2, not_le]
    rw [show ball_radius = Real.sqrt 100 by unfold ball_radius; rw [sqrt_hundred]]
    apply Real.sqrt_lt_sqrt (by norm_num)
    nlinarith [sqrt3_sq, sqrt3_gt, sqrt3_lt]
  have hS3 : scanEdge (300, 300 + 100 * Real.sqrt 3) (200, 300)
      ⟨(1195 / 2 - 5 * Real.sqrt 3, 295 + 5 * Real.sqrt 3 / 2), (0, 0), 1⟩
        = ⟨(1195 / 2 - 5 * Real.sqrt 3, 295 + 5 * Real.sqrt 3 / 2), (0, 0), 1⟩ := by
    simp only [scanEdge]
    by_cases hin : (0 ≤ projLen (1195 / 2 - 5 * Real.sqrt 3, 295 + 5 * Real.sqrt 3 / 2)
        (300, 300 + 100 * Real.sqrt 3) (200, 300) ∧
      projLen (1195 / 2 - 5 * Real.sqrt 3, 295 + 5 * Real.sqrt 3 / 2)
        (300, 300 + 100 * Real.sqrt 3) (200, 300)
          ≤ wallLen (300, 300 + 100 * Real.sqrt 3) (200, 300))
    · rw [if_pos hin, if_neg hd2]
    · rw [if_neg hin]
  have hq3 : projLen (1195 / 2 - 5 * Real.sqrt 3, 295 + 5 * Real.sqrt 3 / 2)
      (200, 300) (300, 300 - 100 * Real.sqrt 3) = 195 := by
    unfold projLen
    rw [wallLen_edge3]
    linear_combination (-(5:ℝ)/4) * sqrt3_sq
  have hd3 : ¬ (perpDist (1195 / 2 - 5 * Real.sqrt 3, 295 + 5 * Real.sqrt 3 / 2)
      (200, 300) (300, 300 - 100 * Real.sqrt 3) ≤ ball_radius) := by
    unfold perpDist
    rw [hq3, wallLen_edge3, not_le]
    rw [show ball_radius = Real.sqrt 100 by unfold ball_radius; rw [sqrt_hundred]]
    apply Real.sqrt_lt_sqrt (by norm_num)
    nlinarith [sqrt3_sq, sqrt3_gt, sqrt3_lt]
  have hS4 : scanEdge (200, 300) (300, 300 - 100 * Real.sqrt 3)
      ⟨(1195 / 2 - 5 * Real.sqrt 3, 295 + 5 * Real.sqrt 3 / 2), (0, 0), 1⟩
        = ⟨(1195 / 2 - 5 * Real.sqrt 3, 295 + 5 * Real.sqrt 3 / 2), (0, 0), 1⟩ := by
    simp only [scanEdge]
    by_cases hin : (0 ≤ projLen (1195 / 2 - 5 * Real.sqrt 3, 295 + 5 * Real.sqrt 3 / 2)
        (200, 300) (300, 300 - 100 * Real.sqrt 3) ∧
      projLen (1195 / 2 - 5 * Real.sqrt 3, 295 + 5 * Real.sqrt 3 / 2)
        (200, 300) (300, 300 - 100 * Real.sqrt 3)
          ≤ wallLen (200, 300) (300, 300 - 100 * Real.sqrt 3))
    · rw [if_pos hin, if_neg hd3]
    · rw [if_neg hin]
  have hq4 : projLen (1195 / 2 - 5 * Real.sqrt 3, 295 + 5 * Real.sqrt 3 / 2)
      (300, 300 - 100 * Real.sqrt 3) (500, 300 - 100 * Real.sqrt 3)
        = 595 / 2 - 5 * Real.sqrt 3 := by
    unfold projLen
    rw [wallLen_edge4]
    ring
  have hS5 : scanEdge (300, 300 - 100 * Real.sqrt 3) (500, 300 - 100 * Real.sqrt 3)
      ⟨(1195 / 2 - 5 * Real.sqrt 3, 295 + 5 * Real.sqrt 3 / 2), (0, 0), 1⟩
        = ⟨(1195 / 2 - 5 * Real.sqrt 3, 295 + 5 * Real.sqrt 3 / 2), (0, 0), 1⟩ := by
    simp only [scanEdge]
    rw [if_neg]
    rintro ⟨-, h2⟩
    rw [hq4, wallLen_edge4] at h2
    nlinarith [sqrt3_lt]
  have hq5 : projLen (1195 / 2 - 5 * Real.sqrt 3, 295 + 5 * Real.sqrt 3 / 2)
      (500, 300 - 100 * Real.sqrt 3) (600, 300) = 405 / 2 - 5 * Real.sqrt 3 := by
    unfold projLen
    rw [wallLen_edge5]
    linear_combination (205/4 : ℝ) * sqrt3_sq
  have hd5 : perpDist (1195 / 2 - 5 * Real.sqrt 3, 295 + 5 * Real.sqrt 3 / 2)
      (500, 300 - 100 * Real.sqrt 3) (600, 300) ≤ ball_radius := by
    unfold perpDist
    rw [hq5, wallLen_edge5]
    rw [show ball_radius = Real.sqrt 100 by unfold ball_radius; rw [sqrt_hundred]]
    apply Real.sqrt_le_sqrt
    nlinarith [sqrt3_sq, sqrt3_gt, sqrt3_lt]
  have hS6 : scanEdge (500, 300 - 100 * Real.sqrt 3) (600, 300)
      ⟨(1195 / 2 - 5 * Real.sqrt 3, 295 + 5 * Real.sqrt 3 / 2), (0, 0), 1⟩
        = ⟨(reflect_velocity (1195 / 2 - 5 * Real.sqrt 3, 295 + 5 * Real.sqrt 3 / 2)
              (0, 0) (500, 300 - 100 * Real.sqrt 3) (600, 300)).2,
           (reflect_velocity (1195 / 2 - 5 * Real.sqrt 3, 295 + 5 * Real.sqrt 3 / 2)
              (0, 0) (500, 300 - 100 * Real.sqrt 3) (600, 300)).1, 2⟩ := by
    simp only [scanEdge]
    rw [if_pos ⟨by rw [hq5]; nlinarith [sqrt3_lt],
        by rw [hq5, wallLen_edge5]; nlinarith [sqrt3_gt]⟩, if_pos hd5]
  have hcount : stepReflectionCount ⟨-2, (590, 300), (0, 0)⟩ = 2 := by
    have h0 : stepReflectionCount ⟨-2, (590, 300), (0, 0)⟩
        = (collisionScan (get_hexagon_vertices center hex_size ((-2) + rotation_speed))
            ⟨((590 : ℝ) + 0, (300 : ℝ) + 0), (0, 0), 0⟩).count := rfl
    rw [h0, show (-2 : ℝ) + rotation_speed = 0 by norm_num [rotation_speed],
        show (((590 : ℝ) + 0, (300 : ℝ) + 0) : ℝ × ℝ) = (590, 300) by norm_num]
    rw [hexVertices_angle0]
    unfold collisionScan
    rw [show List.range 6 = [0, 1, 2, 3, 4, 5] from rfl]
    simp only [List.foldl_cons, List.foldl_nil]
    rw [show hexList0.getD 0 (0, 0) = ((600 : ℝ), (300 : ℝ)) from rfl,
        show hexList0.getD 1 (0, 0) = ((500 : ℝ), 300 + 100 * Real.sqrt 3) from rfl,
        show hexList0.getD 2 (0, 0) = ((300 : ℝ), 300 + 100 * Real.sqrt 3) from rfl,
        show hexList0.getD 3 (0, 0) = ((200 : ℝ), (300 : ℝ)) from rfl,
        show hexList0.getD 4 (0, 0) = ((300 : ℝ), 300 - 100 * Real.sqrt 3) from rfl,
        show hexList0.getD 5 (0, 0) = ((500 : ℝ), 300 - 100 * Real.sqrt 3) from rfl]
    rw [hS1, hS2, hS3, hS4, hS5, hS6]
  exact ⟨hcount, by rw [hcount]; norm_num⟩

end HexSim
